import Mathlib

/-!
# SmartQueue booking core: a shallow embedding

This file embeds the booking/capacity logic of the SmartQueue appointment
system in Lean: the data model (`Service`, `TimeSlot`, `Appointment`,
`BlockedDate`), the derived capacity queries of `booking/models.py`, the
slot-recommendation heuristic of `booking/ai_engine.py`, and the request
handlers of `booking/views.py` (booking creation, cancellation, admin
status actions, QR check-in, and the per-date slot listing).

Modelling conventions: dates are integers (day numbers, `DB.today` is the
current day), times of day are minutes after midnight (so a slot's start
hour is `start_time / 60`), the database is an explicit record of lists,
and every request handler is a pure function returning the next database
together with an `Except`-style outcome.  Medians are computed in `ℚ`,
mirroring Python's exact int/float arithmetic on these small values.
-/

deriving instance DecidableEq for Except

namespace SmartQueue

/-- Booking status values, from `STATUS_CHOICES` in `booking/models.py`. -/
inductive Status where
  | pending
  | approved
  | completed
  | cancelled
  | rejected
  | checked_in
deriving DecidableEq, Repr

/-- Result values of `TimeSlot.slot_status`. -/
inductive SlotStatus where
  | available
  | almost_full
  | full
deriving DecidableEq, Repr

/-- A bookable service (`Service` model): id, duration in minutes, active flag.
`duration` is a non-nullable integer column; Python treats a zero value as
falsy in `self.service.duration or 30`. -/
structure Service where
  id : ℕ
  duration : ℕ
  is_active : Bool
deriving DecidableEq, Repr

/-- A bookable time window (`TimeSlot` model).  `date` is a day number,
`start_time` and `end_time` are minutes after midnight. -/
structure TimeSlot where
  id : ℕ
  date : ℤ
  start_time : ℕ
  end_time : ℕ
  is_available : Bool
  capacity : ℕ
deriving DecidableEq, Repr

/-- A booking (`Appointment` model): foreign keys are stored as ids;
`qr_token` models the unique UUID check-in token. -/
structure Appointment where
  id : ℕ
  user : ℕ
  service : ℕ
  timeslot : ℕ
  status : Status
  qr_token : ℕ
deriving DecidableEq, Repr

/-- The relational store: all rows plus the current date (`date.today()`).
`blocked_dates` is the set of `BlockedDate.date` values. -/
structure DB where
  services : List Service
  slots : List TimeSlot
  appointments : List Appointment
  blocked_dates : List ℤ
  today : ℤ
deriving DecidableEq, Repr

/-- `TimeSlot.objects.get(pk=i)` / FK dereference: first slot with this id. -/
def findSlot (db : DB) (i : ℕ) : Option TimeSlot :=
  db.slots.find? (fun s => s.id == i)

/-- `Service.objects.get(pk=i)` style lookup: first service with this id. -/
def findService (db : DB) (i : ℕ) : Option Service :=
  db.services.find? (fun s => s.id == i)

/-- Whether a booking counts toward slot occupancy: Django's
`.exclude(status__in=['cancelled', 'rejected'])`. -/
def isActiveStatus (st : Status) : Bool :=
  !(st == Status.cancelled) && !(st == Status.rejected)

/-- `TimeSlot.booking_count`: number of appointments on this slot whose
status is neither cancelled nor rejected. -/
def booking_count (db : DB) (ts : TimeSlot) : ℕ :=
  (db.appointments.filter
    (fun a => a.timeslot == ts.id && isActiveStatus a.status)).length

/-- `TimeSlot.available_spots`: `max(0, capacity - booking_count())`
(truncated subtraction on `ℕ` is exactly `max 0` of the difference). -/
def available_spots (db : DB) (ts : TimeSlot) : ℕ :=
  ts.capacity - booking_count db ts

/-- `TimeSlot.slot_status`: `available` when the active count is zero,
otherwise `almost_full` when strictly below capacity, otherwise `full`. -/
def slot_status (db : DB) (ts : TimeSlot) : SlotStatus :=
  let count := booking_count db ts
  if count = 0 then SlotStatus.available
  else if count < ts.capacity then SlotStatus.almost_full
  else SlotStatus.full

/-- Statuses counted by `Appointment.estimated_waiting_time`. -/
def waitingStatuses : List Status :=
  [Status.pending, Status.approved, Status.checked_in]

/-- `Appointment.estimated_waiting_time`: count the appointments (any user,
any service) whose slot is on the same date with a strictly earlier start
time and whose status is pending/approved/checked_in, then multiply by the
service duration, with `duration or 30` mapping a zero duration to 30.
`none` only when the FK targets are missing from the store. -/
def estimated_waiting_time (db : DB) (a : Appointment) : Option ℕ := do
  let ts ← findSlot db a.timeslot
  let sv ← findService db a.service
  let bookings_before :=
    (db.appointments.filter (fun b =>
      match findSlot db b.timeslot with
      | some bs =>
          bs.date == ts.date && bs.start_time < ts.start_time &&
            waitingStatuses.contains b.status
      | none => false)).length
  let avg_duration := if sv.duration = 0 then 30 else sv.duration
  return bookings_before * avg_duration

/-! ## Recommender (`booking/ai_engine.py`, `SmartSlotRecommender`) -/

/-- Lookback window of the recommender (`ANALYSIS_DAYS`). -/
def ANALYSIS_DAYS : ℤ := 30

/-- A slot's start hour (`slot.start_time.hour`). -/
def slotHour (ts : TimeSlot) : ℕ := ts.start_time / 60

/-- The number of appointments contributing to the traffic bucket of hour
`h` in `SmartSlotRecommender._get_hour_traffic`: the query filters only on
`timeslot__date__gte = today - ANALYSIS_DAYS` (every status is counted and
there is no upper date bound), then buckets by the slot's start hour. -/
def traffic_count (db : DB) (h : ℕ) : ℕ :=
  (db.appointments.filter (fun a =>
    match findSlot db a.timeslot with
    | some ts => db.today - ANALYSIS_DAYS ≤ ts.date && slotHour ts == h
    | none => false)).length

/-- The traffic dict `{hour: booking_count}` of `_get_hour_traffic`, as an
association list: one entry per hour that received at least one count.
Python `time.hour` is always below 24. -/
def hour_traffic (db : DB) : List (ℕ × ℕ) :=
  (List.range 24).filterMap (fun h =>
    let c := traffic_count db h
    if 0 < c then some (h, c) else none)

/-- `SmartSlotRecommender._median_traffic` applied to the dict's value
list: sort ascending; an even number of values averages the two middle
ones, an odd number takes the middle one, the empty list yields 0. -/
def median_traffic (values : List ℕ) : ℚ :=
  if values = [] then 0
  else
    let s := values.insertionSort (fun a b => a ≤ b)
    let mid := values.length / 2
    if values.length % 2 = 0 then
      ((s.getD (mid - 1) 0 : ℚ) + (s.getD mid 0 : ℚ)) / 2
    else (s.getD mid 0 : ℚ)

/-- The operating range of hours considered by the recommender:
`set(range(7, 20))`, i.e. hours 7–19 inclusive. -/
def operatingHours : List ℕ := List.range' 7 13

/-- The `low_traffic_hours` set built by the recommender: hours of the
traffic dict whose count is at most the median, together with every
operating-range hour absent from the dict. -/
def low_traffic_hours (traffic : List (ℕ × ℕ)) : List ℕ :=
  let m := median_traffic (traffic.map Prod.snd)
  (traffic.filter (fun hc => (hc.2 : ℚ) ≤ m)).map Prod.fst
    ++ operatingHours.filter (fun h => !((traffic.map Prod.fst).contains h))

/-- `SmartSlotRecommender.get_recommended_slots`: future available-flagged
slots whose start hour is low-traffic and which still have spots, truncated
to `limit`. -/
def get_recommended_slots (db : DB) (limit : ℕ) : List TimeSlot :=
  let lth := low_traffic_hours (hour_traffic db)
  let future_slots :=
    db.slots.filter (fun ts => db.today ≤ ts.date && ts.is_available)
  (future_slots.filter (fun ts =>
    lth.contains (slotHour ts) && 0 < available_spots db ts)).take limit

/-- The Python default of `get_recommended_slots`'s `limit` parameter. -/
def DEFAULT_RECOMMEND_LIMIT : ℕ := 3

/-- `SmartSlotRecommender.get_recommended_slot_ids_for_date`: ids of the
slots on the given date whose start hour is low-traffic.  No capacity
condition appears here. -/
def recommended_ids_for_date (db : DB) (d : ℤ) : List ℕ :=
  let lth := low_traffic_hours (hour_traffic db)
  ((db.slots.filter (fun ts => ts.date == d)).filter
    (fun ts => lth.contains (slotHour ts))).map (fun ts => ts.id)

/-- The traffic bucket count as the specification describes it (for
comparison with `traffic_count`): only non-cancelled, non-rejected
bookings, and only slot dates inside the 30-day lookback window. -/
def spec_traffic_count (db : DB) (h : ℕ) : ℕ :=
  (db.appointments.filter (fun a =>
    match findSlot db a.timeslot with
    | some ts =>
        isActiveStatus a.status &&
          (db.today - ANALYSIS_DAYS ≤ ts.date && ts.date ≤ db.today) &&
          slotHour ts == h
    | none => false)).length

/-! ## Request handlers (`booking/views.py`)

Each handler is a pure function `DB → ... → DB × Except e α`: the returned
`DB` is the store after the request (unchanged on every error path, which
models both the early returns and the transaction rollback). -/

/-- Outcomes of `BookAppointmentView.post` error paths. -/
inductive BookError where
  | dateBlocked
  | slotNotFound
  | capacityExceeded
  | duplicateBooking
  | invalidService
deriving DecidableEq, Repr

/-- Outcomes of `CancelAppointmentView.post` error paths. -/
inductive CancelError where
  | notFound
  | cannotCancel
deriving DecidableEq, Repr

/-- Outcomes of `AdminAppointmentActionView.post` / `QRCheckInView.get`
error paths. -/
inductive ActionError where
  | notFound
  | invalidTransition
deriving DecidableEq, Repr

/-- A fresh primary key for a new appointment row: one more than the
largest id in the table (models the database's autoincrement column). -/
def freshApptId (db : DB) : ℕ :=
  (db.appointments.map (fun a => a.id)).foldr max 0 + 1

/-- A fresh check-in token for a new appointment row: one more than the
largest token in the table (models `uuid.uuid4()` under the model's
`unique=True` constraint: the stored token collides with no existing
one). -/
def freshToken (db : DB) : ℕ :=
  (db.appointments.map (fun a => a.qr_token)).foldr max 0 + 1

/-- The row inserted by `Appointment.objects.create(...)` during booking:
status `pending`, fresh id and token. -/
def mkAppointment (db : DB) (user : ℕ) (sv : Service) (ts : TimeSlot) :
    Appointment :=
  { id := freshApptId db, user := user, service := sv.id, timeslot := ts.id
    status := Status.pending, qr_token := freshToken db }

/-- Write the `is_available` flag of every slot row with the given id
(models `timeslot.is_available = b; timeslot.save()`). -/
def setSlotAvailability (slots : List TimeSlot) (sid : ℕ) (b : Bool) :
    List TimeSlot :=
  slots.map (fun s => if s.id = sid then { s with is_available := b } else s)

/-- Set the status of the appointment row with the given id
(models `appointment.status = st; appointment.save()`). -/
def setApptStatus (appts : List Appointment) (pk : ℕ) (st : Status) :
    List Appointment :=
  appts.map (fun b => if b.id = pk then { b with status := st } else b)

/-- Django's duplicate-booking test in `BookAppointmentView.post`:
the user already holds a non-cancelled, non-rejected booking on the slot. -/
def hasActiveBooking (db : DB) (user : ℕ) (sid : ℕ) : Bool :=
  db.appointments.any (fun a =>
    a.user == user && a.timeslot == sid && isActiveStatus a.status)

/-- `BookAppointmentView.post`, with the required fields present.  The
blocked-date check uses the `date` parameter submitted with the request
(the view never compares it with the slot's stored date); then, inside the
transaction: fetch the slot, check capacity, check for a duplicate booking
by the same user, fetch the active service, create the `pending`
appointment, and clear the slot's availability flag when the slot has
become full.  Every error path leaves the store unchanged. -/
def book_appointment (db : DB) (user : ℕ) (service_id : ℕ) (date_param : ℤ)
    (slot_id : ℕ) : DB × Except BookError ℕ :=
  if db.blocked_dates.contains date_param then
    (db, Except.error BookError.dateBlocked)
  else
    match findSlot db slot_id with
    | none => (db, Except.error BookError.slotNotFound)
    | some ts =>
      if available_spots db ts = 0 then
        (db, Except.error BookError.capacityExceeded)
      else if hasActiveBooking db user ts.id then
        (db, Except.error BookError.duplicateBooking)
      else
        match db.services.find? (fun s => s.id == service_id && s.is_active) with
        | none => (db, Except.error BookError.invalidService)
        | some sv =>
          let appt := mkAppointment db user sv ts
          let db1 := { db with appointments := appt :: db.appointments }
          let db2 :=
            if available_spots db1 ts = 0 then
              { db1 with slots := setSlotAvailability db1.slots ts.id false }
            else db1
          (db2, Except.ok appt.id)

/-- The availability-restore block shared by cancellation and rejection:
`ts = appointment.timeslot; if ts.available_spots() > 0: ts.is_available =
True; ts.save()`. -/
def restore_slot_availability (db : DB) (slot_id : ℕ) : DB :=
  match findSlot db slot_id with
  | none => db
  | some ts =>
    if 0 < available_spots db ts then
      { db with slots := setSlotAvailability db.slots ts.id true }
    else db

/-- `CancelAppointmentView.post`: `get_object_or_404(Appointment, pk=pk,
user=request.user)` scopes the lookup to the requesting user; a booking in
`pending` or `approved` is set to `cancelled` and the slot's availability
flag is restored when spots remain; any other status is an error. -/
def cancel_appointment (db : DB) (requester : ℕ) (pk : ℕ) :
    DB × Except CancelError Unit :=
  match db.appointments.find? (fun a => a.id == pk && a.user == requester) with
  | none => (db, Except.error CancelError.notFound)
  | some a =>
    if a.status == Status.pending || a.status == Status.approved then
      let db1 := { db with
        appointments := setApptStatus db.appointments a.id Status.cancelled }
      (restore_slot_availability db1 a.timeslot, Except.ok ())
    else (db, Except.error CancelError.cannotCancel)

/-- The admin actions of `AdminAppointmentActionView.post`. -/
inductive AdminAction where
  | approve
  | reject
  | complete
deriving DecidableEq, Repr

/-- The `valid_transitions` table of `AdminAppointmentActionView.post`:
allowed source statuses and the resulting status of each action. -/
def valid_transitions : AdminAction → List Status × Status
  | AdminAction.approve => ([Status.pending], Status.approved)
  | AdminAction.reject => ([Status.pending, Status.approved], Status.rejected)
  | AdminAction.complete =>
      ([Status.approved, Status.checked_in], Status.completed)

/-- `AdminAppointmentActionView.post`: look up the appointment by pk; when
its status is among the action's allowed sources, write the new status, and
after a `reject` restore the slot's availability flag when spots remain;
otherwise report an invalid transition and change nothing. -/
def admin_action (db : DB) (pk : ℕ) (action : AdminAction) :
    DB × Except ActionError Unit :=
  match db.appointments.find? (fun a => a.id == pk) with
  | none => (db, Except.error ActionError.notFound)
  | some a =>
    let allowed := (valid_transitions action).1
    let new_status := (valid_transitions action).2
    if allowed.contains a.status then
      let db1 := { db with
        appointments := setApptStatus db.appointments a.id new_status }
      if action = AdminAction.reject then
        (restore_slot_availability db1 a.timeslot, Except.ok ())
      else (db1, Except.ok ())
    else (db, Except.error ActionError.invalidTransition)

/-- `QRCheckInView.get`: look up the appointment by token; only an
`approved` booking transitions to `checked_in`, anything else renders the
error page and mutates nothing. -/
def qr_check_in (db : DB) (token : ℕ) : DB × Except ActionError Unit :=
  match db.appointments.find? (fun a => a.qr_token == token) with
  | none => (db, Except.error ActionError.notFound)
  | some a =>
    if a.status == Status.approved then
      ({ db with
          appointments := setApptStatus db.appointments a.id Status.checked_in },
        Except.ok ())
    else (db, Except.error ActionError.invalidTransition)

/-- One entry of the JSON array built by `GetAvailableSlotsView.get`. -/
structure SlotInfo where
  id : ℕ
  status : SlotStatus
  available_spots : ℕ
  is_recommended : Bool
deriving DecidableEq, Repr

/-- The JSON response of `GetAvailableSlotsView.get`. -/
structure SlotsResponse where
  blocked : Bool
  slots : List SlotInfo
deriving DecidableEq, Repr

/-- `GetAvailableSlotsView.get`: a blocked date returns the explicit
blocked indicator; otherwise every slot on the date whose `slot_status` is
not `full` is listed with its spot count and whether its id is in the
recommender's id set for the date. -/
def get_available_slots (db : DB) (d : ℤ) : SlotsResponse :=
  if db.blocked_dates.contains d then { blocked := true, slots := [] }
  else
    { blocked := false
      slots :=
        (db.slots.filter (fun ts => ts.date == d)).filterMap (fun ts =>
          let st := slot_status db ts
          if st = SlotStatus.full then none
          else
            some { id := ts.id, status := st
                   available_spots := available_spots db ts
                   is_recommended :=
                     (recommended_ids_for_date db d).contains ts.id }) }

/-! ## Helper lemmas -/

/-- A status is active exactly when it is outside {cancelled, rejected}. -/
theorem isActiveStatus_eq_contains (st : Status) :
    isActiveStatus st =
      !([Status.cancelled, Status.rejected].contains st) := by
  cases st <;> rfl

/-- A capacity-zero slot with no bookings, for boundary-case analysis. -/
def tsCapZero : TimeSlot :=
  { id := 1, date := 0, start_time := 540, end_time := 600
    is_available := true, capacity := 0 }

/-- A store holding only `tsCapZero`. -/
def dbCapZero : DB :=
  { services := [], slots := [tsCapZero], appointments := []
    blocked_dates := [], today := 0 }

/-! ## C2: slot capacity tracker -/

/-- C2 counterexample: on a capacity-0 slot with no bookings the code's
occupancy (0) is at least the capacity (0), yet `slot_status` answers
`available`, not `full` — the claim's "'full' exactly when occupancy ≥
capacity, including the boundary case capacity = 0" fails on the code. -/
theorem C2_counterexample_capacity_zero :
    tsCapZero.capacity ≤ booking_count dbCapZero tsCapZero ∧
      slot_status dbCapZero tsCapZero = SlotStatus.available ∧
      slot_status dbCapZero tsCapZero ≠ SlotStatus.full := by
  decide

/-- C2 (amended): occupancy counts the bookings on the slot whose status is
not in {cancelled, rejected}; remaining = max(0, capacity − occupancy);
`available` exactly when occupancy = 0 (this branch takes precedence),
`full` exactly when occupancy is nonzero and ≥ capacity, and `almost_full`
exactly when 0 < occupancy < capacity — so a capacity-0 slot with no
bookings reads `available`, not `full`. -/
theorem C2_slot_capacity_tracker (db : DB) (ts : TimeSlot) :
    booking_count db ts =
      db.appointments.countP (fun a =>
        a.timeslot == ts.id &&
          !([Status.cancelled, Status.rejected].contains a.status)) ∧
    (available_spots db ts : ℤ) =
      max 0 ((ts.capacity : ℤ) - (booking_count db ts : ℤ)) ∧
    (slot_status db ts = SlotStatus.available ↔ booking_count db ts = 0) ∧
    (slot_status db ts = SlotStatus.full ↔
      booking_count db ts ≠ 0 ∧ ts.capacity ≤ booking_count db ts) ∧
    (slot_status db ts = SlotStatus.almost_full ↔
      0 < booking_count db ts ∧ booking_count db ts < ts.capacity) := by
  refine ⟨?_, ?_, ?_, ?_, ?_⟩
  · simp [booking_count, List.countP_eq_length_filter, isActiveStatus_eq_contains]
  · simp only [available_spots]
    omega
  · simp only [slot_status]
    split_ifs with h1 h2 <;> simp_all
  · simp only [slot_status]
    split_ifs with h1 h2 <;> simp_all
  · simp only [slot_status]
    split_ifs with h1 h2 <;> simp_all
    omega

/-! ## C6: median and low-traffic classification -/

/-- C6: `median_traffic` of an empty value list is 0; of `[1,2,3,4]` it is
5/2; on a sorted list it is the middle value for an odd length and the
average of the two middle values for an even length; and an hour is
classified low-traffic exactly when its traffic count is at most the
median (ties inclusive) or the hour lies in the operating range 7–19
inclusive and has no traffic entry at all. -/
theorem C6_median_and_low_traffic (l : List ℕ) (hl : List.Sorted (· ≤ ·) l)
    (tr : List (ℕ × ℕ)) (h : ℕ) :
    median_traffic [] = 0 ∧
    median_traffic [1, 2, 3, 4] = 5 / 2 ∧
    (l.length % 2 = 1 → median_traffic l = (l.getD (l.length / 2) 0 : ℚ)) ∧
    (l ≠ [] → l.length % 2 = 0 →
      median_traffic l =
        ((l.getD (l.length / 2 - 1) 0 : ℚ) +
          (l.getD (l.length / 2) 0 : ℚ)) / 2) ∧
    (h ∈ low_traffic_hours tr ↔
      (∃ c, (h, c) ∈ tr ∧ (c : ℚ) ≤ median_traffic (tr.map Prod.snd)) ∨
        (7 ≤ h ∧ h ≤ 19 ∧ h ∉ tr.map Prod.fst)) := by
  have hmed4 : median_traffic [1, 2, 3, 4] = 5 / 2 := by
    norm_num [median_traffic, List.insertionSort, List.orderedInsert]
    simp
  refine ⟨rfl, hmed4, ?_, ?_, ?_⟩
  · intro hodd
    have hne : l ≠ [] := by
      intro he
      rw [he] at hodd
      simp at hodd
    have heven : ¬ l.length % 2 = 0 := by omega
    simp only [median_traffic, if_neg hne, if_neg heven,
      List.Sorted.insertionSort_eq hl]
  · intro hne heven
    simp only [median_traffic, if_neg hne, if_pos heven,
      List.Sorted.insertionSort_eq hl]
  · simp only [low_traffic_hours, List.mem_append, List.mem_map,
      List.mem_filter, operatingHours, List.mem_range'_1, Bool.not_eq_true',
      decide_eq_true_eq]
    constructor
    · rintro (⟨⟨hh, c⟩, ⟨hmem, hle⟩, rfl⟩ | ⟨hrange, hnc⟩)
      · exact Or.inl ⟨c, hmem, by simpa using hle⟩
      · refine Or.inr ⟨by omega, by omega, ?_⟩
        simpa using hnc
    · rintro (⟨c, hmem, hle⟩ | ⟨h7, h19, hnc⟩)
      · exact Or.inl ⟨(h, c), ⟨hmem, by simpa using hle⟩, rfl⟩
      · refine Or.inr ⟨⟨by omega, by omega⟩, ?_⟩
        simpa using hnc

/-- C6 witness: the theorem instantiated at the sorted list `[1,2,3]`
(odd median 2), traffic `[(9, 4)]` and hour 8: 8 is low-traffic because it
lies in 7–19 and has no entry. -/
theorem C6_median_and_low_traffic_witness :
    median_traffic [1, 2, 3] = 2 ∧ 8 ∈ low_traffic_hours [(9, 4)] := by
  have h := C6_median_and_low_traffic [1, 2, 3]
    (by simp [List.Sorted]) [(9, 4)] 8
  refine ⟨?_, ?_⟩
  · have h3 := h.2.2.1 (by decide)
    simpa using h3
  · exact (h.2.2.2.2).mpr (Or.inr ⟨by decide, by decide, by decide⟩)

/-! ## C5: recommender traffic counts -/

/-- A slot inside the lookback window, at hour 9. -/
def tsRecent : TimeSlot :=
  { id := 1, date := 95, start_time := 540, end_time := 600
    is_available := true, capacity := 3 }

/-- A future-dated slot at hour 9. -/
def tsFuture : TimeSlot :=
  { id := 2, date := 200, start_time := 540, end_time := 600
    is_available := true, capacity := 3 }

/-- A store with one cancelled booking inside the lookback window and one
pending booking on a slot dated far in the future (today = 100). -/
def dbTraffic : DB :=
  { services := []
    slots := [tsRecent, tsFuture]
    appointments :=
      [{ id := 1, user := 1, service := 1, timeslot := 1
         status := Status.cancelled, qr_token := 11 },
       { id := 2, user := 1, service := 1, timeslot := 2
         status := Status.pending, qr_token := 12 }]
    blocked_dates := [], today := 100 }

/-- C5 counterexample: at hour 9 the code's traffic count is 2 — it counts
the cancelled booking and the booking on a slot dated 100 days in the
future — while the claim's count (non-cancelled/non-rejected bookings with
slot date inside the 30-day window) is 0. -/
theorem C5_counterexample :
    traffic_count dbTraffic 9 = 2 ∧ spec_traffic_count dbTraffic 9 = 0 ∧
      traffic_count dbTraffic 9 ≠ spec_traffic_count dbTraffic 9 := by
  decide

/-- The per-hour count as the amended claim describes it: every booking
whose slot resolves and is dated on or after `today − 30` is counted —
regardless of its status and with no upper date bound — bucketed by the
slot's start hour. -/
def amended_traffic_count (db : DB) (h : ℕ) : ℕ :=
  db.appointments.countP (fun a =>
    match findSlot db a.timeslot with
    | some ts => db.today - 30 ≤ ts.date && slotHour ts == h
    | none => false)

/-- C5 (amended): the recommender's per-hour traffic count for hour `h`
equals the amended count (all statuses, lower date bound only), and the
traffic dict carries an entry `(h, c)` exactly when that count is positive
and equal to `c` (assuming stored start times are valid times of day). -/
theorem C5_hour_traffic (db : DB) (h : ℕ)
    (hw : ∀ a ∈ db.appointments, ∀ ts, findSlot db a.timeslot = some ts →
      ts.start_time < 1440) :
    traffic_count db h = amended_traffic_count db h ∧
    (∀ c, (h, c) ∈ hour_traffic db ↔
      0 < c ∧ traffic_count db h = c) := by
  constructor
  · simp [traffic_count, amended_traffic_count,
      List.countP_eq_length_filter, ANALYSIS_DAYS]
  · intro c
    constructor
    · intro hmem
      simp only [hour_traffic, List.mem_filterMap, List.mem_range] at hmem
      obtain ⟨a, _, hfa⟩ := hmem
      by_cases hpos : 0 < traffic_count db a
      · simp only [if_pos hpos, Option.some_inj, Prod.mk.injEq] at hfa
        obtain ⟨rfl, rfl⟩ := hfa
        exact ⟨hpos, rfl⟩
      · simp [if_neg hpos] at hfa
    · rintro ⟨hpos, rfl⟩
      have hlt : h < 24 := by
        rw [traffic_count, List.length_pos_iff_exists_mem] at hpos
        obtain ⟨a, ha⟩ := hpos
        rw [List.mem_filter] at ha
        obtain ⟨hamem, hpa⟩ := ha
        rcases hfs : findSlot db a.timeslot with _ | ts
        · rw [hfs] at hpa
          simp at hpa
        · rw [hfs] at hpa
          simp only [Bool.and_eq_true, beq_iff_eq] at hpa
          have hst := hw a hamem ts hfs
          have : slotHour ts < 24 := by
            rw [slotHour, Nat.div_lt_iff_lt_mul (by norm_num)]
            omega
          omega
      simp only [hour_traffic, List.mem_filterMap, List.mem_range]
      exact ⟨h, hlt, by simp [*]⟩

/-- C5 amended-claim witness: on `dbTraffic`, hour 9 has code count 2 equal
to the amended count, and the traffic dict holds the entry `(9, 2)`. -/
theorem C5_hour_traffic_witness :
    traffic_count dbTraffic 9 = amended_traffic_count dbTraffic 9 ∧
      (9, 2) ∈ hour_traffic dbTraffic := by
  have h := C5_hour_traffic dbTraffic 9 (by decide)
  exact ⟨h.1, (h.2 2).mpr (by decide)⟩

/-! ## C4: per-date slot recommendation -/

/-- Slots with distinct ids that share an id are equal. -/
theorem slot_eq_of_id_eq {db : DB} {ts1 ts2 : TimeSlot}
    (hnd : (db.slots.map (fun s => s.id)).Nodup)
    (h1 : ts1 ∈ db.slots) (h2 : ts2 ∈ db.slots) (h : ts1.id = ts2.id) :
    ts1 = ts2 :=
  List.inj_on_of_nodup_map hnd h1 h2 h

/-- `slot_status` is `full` exactly when the active count is nonzero and
at least the capacity. -/
theorem slot_status_eq_full_iff (db : DB) (ts : TimeSlot) :
    slot_status db ts = SlotStatus.full ↔
      ¬(booking_count db ts = 0 ∨ booking_count db ts < ts.capacity) := by
  simp only [slot_status]
  split_ifs with h1 h2 <;> simp_all

/-- Membership in the per-date recommended-id set, under distinct slot
ids: a stored slot's id is in the set exactly when the slot lies on the
date and its start hour is low-traffic. -/
theorem mem_recommended_ids_iff {db : DB} {ts : TimeSlot} {d : ℤ}
    (hnd : (db.slots.map (fun s => s.id)).Nodup) (hts : ts ∈ db.slots) :
    ts.id ∈ recommended_ids_for_date db d ↔
      ts.date = d ∧ slotHour ts ∈ low_traffic_hours (hour_traffic db) := by
  simp only [recommended_ids_for_date, List.mem_map, List.mem_filter,
    beq_iff_eq]
  constructor
  · rintro ⟨ts', ⟨⟨hmem', hdate'⟩, hlth'⟩, hid⟩
    obtain rfl := slot_eq_of_id_eq hnd hts hmem' hid.symm
    exact ⟨hdate', by simpa using hlth'⟩
  · rintro ⟨hdate, hlth⟩
    exact ⟨ts, ⟨⟨hts, hdate⟩, by simpa using hlth⟩, rfl⟩

/-- C4 counterexample: on a store holding a single capacity-0, zero-
occupancy slot at a low-traffic hour, the per-date availability response
marks the slot recommended although its occupancy (0) is not strictly
below its capacity (0) — refuting "recommended only if remaining capacity
is positive". -/
theorem C4_counterexample :
    (∃ info ∈ (get_available_slots dbCapZero 0).slots,
        info.id = tsCapZero.id ∧ info.is_recommended = true) ∧
      ¬ booking_count dbCapZero tsCapZero < tsCapZero.capacity := by
  decide

/-- C4 (amended): for a non-blocked target date with distinct slot ids, a
stored slot on that date is listed and marked recommended exactly when its
start hour is low-traffic and the slot is not full, i.e. its occupancy is
zero or strictly below capacity (a capacity-0 empty slot therefore counts
as recommended despite having no remaining capacity). -/
theorem C4_recommended_for_date (db : DB) (d : ℤ) (ts : TimeSlot)
    (hts : ts ∈ db.slots) (hdate : ts.date = d)
    (hnd : (db.slots.map (fun s => s.id)).Nodup)
    (hnb : db.blocked_dates.contains d = false) :
    (∃ info ∈ (get_available_slots db d).slots,
        info.id = ts.id ∧ info.is_recommended = true) ↔
      (slotHour ts ∈ low_traffic_hours (hour_traffic db) ∧
        (booking_count db ts = 0 ∨ booking_count db ts < ts.capacity)) := by
  simp only [get_available_slots, hnb, Bool.false_eq_true, if_false]
  constructor
  · rintro ⟨info, hinfo, hid, hrec⟩
    simp only [List.mem_filterMap, List.mem_filter, beq_iff_eq] at hinfo
    obtain ⟨ts', ⟨hmem', hdate'⟩, hf⟩ := hinfo
    by_cases hfull : slot_status db ts' = SlotStatus.full
    · simp [hfull] at hf
    · simp only [if_neg hfull, Option.some_inj] at hf
      have hid' : ts'.id = ts.id := by
        rw [← hf] at hid
        exact hid
      obtain rfl := slot_eq_of_id_eq hnd hmem' hts hid'
      have hrec' : (recommended_ids_for_date db d).contains ts'.id = true := by
        rw [← hf] at hrec
        exact hrec
      have hrec'' : ts'.id ∈ recommended_ids_for_date db d := by
        simpa using hrec'
      have hlth := ((mem_recommended_ids_iff hnd hmem').mp hrec'').2
      rw [slot_status_eq_full_iff] at hfull
      exact ⟨hlth, by tauto⟩
  · rintro ⟨hlth, hcap⟩
    have hfull : ¬ slot_status db ts = SlotStatus.full := by
      rw [slot_status_eq_full_iff]
      tauto
    refine ⟨{ id := ts.id, status := slot_status db ts
              available_spots := available_spots db ts
              is_recommended := (recommended_ids_for_date db d).contains ts.id },
      ?_, rfl, ?_⟩
    · simp only [List.mem_filterMap, List.mem_filter, beq_iff_eq]
      exact ⟨ts, ⟨hts, hdate⟩, by simp [if_neg hfull]⟩
    · simpa using (mem_recommended_ids_iff hnd hts).mpr ⟨hdate, hlth⟩

/-- C4 amended-claim witness: on the capacity-0 store, the single slot is
listed as recommended, matching the amended condition (low-traffic hour
and zero occupancy). -/
theorem C4_recommended_for_date_witness :
    (∃ info ∈ (get_available_slots dbCapZero 0).slots,
        info.id = tsCapZero.id ∧ info.is_recommended = true) ∧
      booking_count dbCapZero tsCapZero = 0 := by
  refine ⟨?_, by decide⟩
  exact (C4_recommended_for_date dbCapZero 0 tsCapZero (by decide) (by decide)
    (by decide) (by decide)).mpr (by decide)

/-! ## C10: general slot recommendation -/

/-- C10: `get_recommended_slots` returns at most `limit` slots (the Python
default for `limit` is 3), and every returned slot has a date of today or
later, a true stored availability flag, and positive derived remaining
capacity — in particular a slot whose availability flag was left cleared
is never returned, whatever its derived capacity. -/
theorem C10_get_recommended_slots (db : DB) (limit : ℕ) :
    (get_recommended_slots db limit).length ≤ limit ∧
    DEFAULT_RECOMMEND_LIMIT = 3 ∧
    ∀ ts ∈ get_recommended_slots db limit,
      db.today ≤ ts.date ∧ ts.is_available = true ∧
        0 < available_spots db ts := by
  refine ⟨?_, rfl, ?_⟩
  · simp only [get_recommended_slots]
    apply List.length_take_le
  · intro ts hts
    simp only [get_recommended_slots] at hts
    have hmem := List.mem_of_mem_take hts
    simp only [List.mem_filter, Bool.and_eq_true, decide_eq_true_eq] at hmem
    exact ⟨hmem.1.2.1, hmem.1.2.2, hmem.2.2⟩

/-- C10 witness: on `dbTraffic` with the default limit, the result length
is at most 3 and the future slot it returns satisfies all three
conditions. -/
theorem C10_get_recommended_slots_witness :
    (get_recommended_slots dbTraffic 3).length ≤ 3 ∧
      (dbTraffic.today ≤ tsFuture.date ∧ tsFuture.is_available = true ∧
        0 < available_spots dbTraffic tsFuture) := by
  have h := C10_get_recommended_slots dbTraffic 3
  exact ⟨h.1, h.2.2 tsFuture (by decide)⟩

/-! ## Frame lemmas for status updates and availability restore -/

/-- `setApptStatus` keeps rows with a different id. -/
theorem mem_setApptStatus_of_ne {appts : List Appointment} {pk : ℕ}
    {st : Status} {b : Appointment} (hb : b ∈ appts) (hne : b.id ≠ pk) :
    b ∈ setApptStatus appts pk st := by
  have : b = (if b.id = pk then { b with status := st } else b) := by
    rw [if_neg hne]
  rw [setApptStatus]
  exact this ▸ List.mem_map_of_mem _ hb

/-- Rows of `setApptStatus` with a different id come from the input. -/
theorem of_mem_setApptStatus_ne {appts : List Appointment} {pk : ℕ}
    {st : Status} {b : Appointment} (hb : b ∈ setApptStatus appts pk st)
    (hne : b.id ≠ pk) : b ∈ appts := by
  rw [setApptStatus, List.mem_map] at hb
  obtain ⟨b0, hb0, hgb⟩ := hb
  by_cases h0 : b0.id = pk
  · rw [if_pos h0] at hgb
    rw [← hgb] at hne
    exact absurd h0 hne
  · rw [if_neg h0] at hgb
    rwa [← hgb]

/-- Every row of `setApptStatus` whose id is the target carries the new
status. -/
theorem status_of_mem_setApptStatus {appts : List Appointment} {pk : ℕ}
    {st : Status} {b : Appointment} (hb : b ∈ setApptStatus appts pk st)
    (heq : b.id = pk) : b.status = st := by
  rw [setApptStatus, List.mem_map] at hb
  obtain ⟨b0, hb0, hgb⟩ := hb
  by_cases h0 : b0.id = pk
  · rw [if_pos h0] at hgb
    rw [← hgb]
  · rw [if_neg h0] at hgb
    rw [← hgb] at heq
    exact absurd heq h0

/-- `restore_slot_availability` never touches the appointment table (nor
services, blocked dates, or the clock). -/
theorem restore_slot_availability_frame (db : DB) (sid : ℕ) :
    (restore_slot_availability db sid).appointments = db.appointments ∧
    (restore_slot_availability db sid).services = db.services ∧
    (restore_slot_availability db sid).blocked_dates = db.blocked_dates ∧
    (restore_slot_availability db sid).today = db.today := by
  rw [restore_slot_availability]
  rcases findSlot db sid with _ | ts
  · exact ⟨rfl, rfl, rfl, rfl⟩
  · dsimp only
    split_ifs <;> exact ⟨rfl, rfl, rfl, rfl⟩

/-- Effect of `restore_slot_availability` on the slot table: when spots
remain on the looked-up slot its availability flag reads true afterwards;
rows with other ids pass through unchanged in both directions; and rows
with the target id agree with the looked-up slot on every field except
possibly the availability flag (given distinct slot ids). -/
theorem restore_slot_availability_slots (db : DB) (sid : ℕ) (ts : TimeSlot)
    (hts : findSlot db sid = some ts)
    (hnd : (db.slots.map (fun s => s.id)).Nodup) :
    (booking_count db ts < ts.capacity →
      ∀ s ∈ (restore_slot_availability db sid).slots, s.id = ts.id →
        s.is_available = true) ∧
    (∀ s ∈ db.slots, s.id ≠ ts.id →
      s ∈ (restore_slot_availability db sid).slots) ∧
    (∀ s ∈ (restore_slot_availability db sid).slots, s.id ≠ ts.id →
      s ∈ db.slots) ∧
    (∀ s ∈ (restore_slot_availability db sid).slots, s.id = ts.id →
      s.date = ts.date ∧ s.start_time = ts.start_time ∧
        s.end_time = ts.end_time ∧ s.capacity = ts.capacity) := by
  have htsmem : ts ∈ db.slots := List.mem_of_find?_eq_some hts
  rw [restore_slot_availability, hts]
  dsimp only
  by_cases hpos : 0 < available_spots db ts
  · rw [if_pos hpos]
    dsimp only
    refine ⟨?_, ?_, ?_, ?_⟩
    · intro _ s hs hsid
      rw [setSlotAvailability, List.mem_map] at hs
      obtain ⟨s0, _, hgs⟩ := hs
      by_cases h0 : s0.id = ts.id
      · rw [if_pos h0] at hgs
        rw [← hgs]
      · rw [if_neg h0] at hgs
        rw [← hgs] at hsid
        exact absurd hsid h0
    · intro s hs hne
      have : s = (if s.id = ts.id then { s with is_available := true } else s) := by
        rw [if_neg hne]
      rw [setSlotAvailability]
      exact this ▸ List.mem_map_of_mem _ hs
    · intro s hs hne
      rw [setSlotAvailability, List.mem_map] at hs
      obtain ⟨s0, hs0, hgs⟩ := hs
      by_cases h0 : s0.id = ts.id
      · rw [if_pos h0] at hgs
        rw [← hgs] at hne
        exact absurd h0 hne
      · rw [if_neg h0] at hgs
        rwa [← hgs]
    · intro s hs hsid
      rw [setSlotAvailability, List.mem_map] at hs
      obtain ⟨s0, hs0, hgs⟩ := hs
      by_cases h0 : s0.id = ts.id
      · obtain rfl := List.inj_on_of_nodup_map hnd hs0 htsmem h0
        rw [if_pos h0] at hgs
        rw [← hgs]
        exact ⟨rfl, rfl, rfl, rfl⟩
      · rw [if_neg h0] at hgs
        rw [← hgs] at hsid
        exact absurd hsid h0
  · rw [if_neg hpos]
    have hcap : ¬ booking_count db ts < ts.capacity := by
      rw [available_spots] at hpos
      omega
    refine ⟨fun h => absurd h hcap, fun s hs _ => hs, fun s hs _ => hs, ?_⟩
    intro s hs hsid
    obtain rfl := List.inj_on_of_nodup_map hnd hs htsmem hsid
    exact ⟨rfl, rfl, rfl, rfl⟩

/-- `booking_count` reads only the appointment table. -/
theorem booking_count_congr {db1 db2 : DB} (ts : TimeSlot)
    (h : db1.appointments = db2.appointments) :
    booking_count db1 ts = booking_count db2 ts := by
  rw [booking_count, booking_count, h]

/-! ## C7: cancellation / rejection side effect and frame -/

/-- What a successful cancellation (`st = cancelled`) or rejection
(`st = rejected`) of booking `pk` on slot `ts` must leave behind: the
slot's flag is on whenever occupancy dropped below capacity, slot rows
are otherwise untouched (other ids pass through; the touched row differs
at most in its flag), bookings with other ids pass through in both
directions, the target booking carries the new status, and services,
blocked dates and the clock are untouched. -/
def FrameAfterStatusChange (db db' : DB) (pk : ℕ) (ts : TimeSlot)
    (st : Status) : Prop :=
  (booking_count db' ts < ts.capacity →
    ∀ s ∈ db'.slots, s.id = ts.id → s.is_available = true) ∧
  (∀ s ∈ db.slots, s.id ≠ ts.id → s ∈ db'.slots) ∧
  (∀ s ∈ db'.slots, s.id ≠ ts.id → s ∈ db.slots) ∧
  (∀ s ∈ db'.slots, s.id = ts.id →
    s.date = ts.date ∧ s.start_time = ts.start_time ∧
      s.end_time = ts.end_time ∧ s.capacity = ts.capacity) ∧
  (∀ b ∈ db.appointments, b.id ≠ pk → b ∈ db'.appointments) ∧
  (∀ b ∈ db'.appointments, b.id ≠ pk → b ∈ db.appointments) ∧
  (∀ b ∈ db'.appointments, b.id = pk → b.status = st) ∧
  db'.services = db.services ∧ db'.blocked_dates = db.blocked_dates ∧
    db'.today = db.today

/-- The state produced by a status write followed by the availability-
restore block satisfies `FrameAfterStatusChange`. -/
theorem frame_after_update (db : DB) (pk : ℕ) (st : Status)
    (a : Appointment) (ts : TimeSlot)
    (hnd : (db.slots.map (fun s => s.id)).Nodup)
    (hts : findSlot db a.timeslot = some ts) (haid : a.id = pk) :
    FrameAfterStatusChange db
      (restore_slot_availability
        { db with appointments := setApptStatus db.appointments a.id st }
        a.timeslot) pk ts st := by
  set db1 : DB :=
    { db with appointments := setApptStatus db.appointments a.id st } with hdb1
  have hts1 : findSlot db1 a.timeslot = some ts := hts
  have hnd1 : (db1.slots.map (fun s => s.id)).Nodup := hnd
  have hframe := restore_slot_availability_frame db1 a.timeslot
  have hslots := restore_slot_availability_slots db1 a.timeslot ts hts1 hnd1
  set db' : DB := restore_slot_availability db1 a.timeslot with hdb'
  have happts : db'.appointments = setApptStatus db.appointments pk st := by
    rw [hframe.1, hdb1, haid]
  have hcnt : booking_count db' ts = booking_count db1 ts :=
    booking_count_congr ts hframe.1
  refine ⟨?_, hslots.2.1, hslots.2.2.1, hslots.2.2.2, ?_, ?_, ?_, ?_, ?_, ?_⟩
  · rw [hcnt]
    exact hslots.1
  · intro b hb hne
    rw [happts]
    exact mem_setApptStatus_of_ne hb hne
  · intro b hb hne
    rw [happts] at hb
    exact of_mem_setApptStatus_ne hb hne
  · intro b hb heq
    rw [happts] at hb
    exact status_of_mem_setApptStatus hb heq
  · rw [hframe.2.1]
  · rw [hframe.2.2.1]
  · rw [hframe.2.2.2]

/-- C7: after a successful user cancellation, or a successful admin
rejection, of a booking on slot `ts`: the operation reports success, the
slot's availability flag is turned back on whenever the occupancy has
dropped below capacity, and nothing else changes — slot rows with other
ids and bookings with other ids pass through unchanged, the touched slot
row differs at most in its availability flag, and the services, blocked
dates and clock are untouched. -/
theorem C7_cancel_reject_restore (db : DB) (requester pk : ℕ)
    (a : Appointment) (ts : TimeSlot)
    (hnd : (db.slots.map (fun s => s.id)).Nodup)
    (hts : findSlot db a.timeslot = some ts)
    (hst : a.status = Status.pending ∨ a.status = Status.approved) :
    (db.appointments.find? (fun b => b.id == pk && b.user == requester) =
        some a →
      (cancel_appointment db requester pk).2 = Except.ok () ∧
        FrameAfterStatusChange db (cancel_appointment db requester pk).1 pk
          ts Status.cancelled) ∧
    (db.appointments.find? (fun b => b.id == pk) = some a →
      (admin_action db pk AdminAction.reject).2 = Except.ok () ∧
        FrameAfterStatusChange db (admin_action db pk AdminAction.reject).1
          pk ts Status.rejected) := by
  constructor
  · intro hfa
    have haid : a.id = pk := by
      have := List.find?_some hfa
      simp only [Bool.and_eq_true, beq_iff_eq] at this
      exact this.1
    have hcond : (a.status == Status.pending ||
        a.status == Status.approved) = true := by
      rcases hst with h | h <;> simp [h]
    have heq : cancel_appointment db requester pk =
        (restore_slot_availability
          { db with
            appointments := setApptStatus db.appointments a.id
              Status.cancelled } a.timeslot, Except.ok ()) := by
      rw [cancel_appointment, hfa]
      simp only [hcond, if_true]
    rw [heq]
    exact ⟨rfl, frame_after_update db pk Status.cancelled a ts hnd hts haid⟩
  · intro hfa
    have haid : a.id = pk := by
      have := List.find?_some hfa
      simpa using this
    have hcond : ([Status.pending, Status.approved].contains
        a.status) = true := by
      rcases hst with h | h <;> simp [h]
    have heq : admin_action db pk AdminAction.reject =
        (restore_slot_availability
          { db with
            appointments := setApptStatus db.appointments a.id
              Status.rejected } a.timeslot, Except.ok ()) := by
      rw [admin_action, hfa]
      simp only [valid_transitions]
      rw [if_pos hcond, if_pos trivial]
    rw [heq]
    exact ⟨rfl, frame_after_update db pk Status.rejected a ts hnd hts haid⟩

/-- A pending booking by user 5 on slot 1, for concrete runs. -/
def apptCancel : Appointment :=
  { id := 1, user := 5, service := 1, timeslot := 1
    status := Status.pending, qr_token := 21 }

/-- A slot with capacity 3 holding `apptCancel`. -/
def tsCancel : TimeSlot :=
  { id := 1, date := 10, start_time := 540, end_time := 600
    is_available := false, capacity := 3 }

/-- A store with the single pending booking `apptCancel` on `tsCancel`. -/
def dbCancel : DB :=
  { services := [{ id := 1, duration := 30, is_active := true }]
    slots := [tsCancel], appointments := [apptCancel]
    blocked_dates := [], today := 10 }

/-- C7 witness: user 5 cancels booking 1 on `dbCancel`; the call succeeds
and the resulting store satisfies the full frame property. -/
theorem C7_cancel_reject_restore_witness :
    (cancel_appointment dbCancel 5 1).2 = Except.ok () ∧
      FrameAfterStatusChange dbCancel (cancel_appointment dbCancel 5 1).1 1
        tsCancel Status.cancelled :=
  (C7_cancel_reject_restore dbCancel 5 1 apptCancel tsCancel (by decide)
    (by decide) (by decide)).1 (by decide)

/-! ## C3: status-transition table -/

/-- C3: the transition table is exhaustive.  The admin table maps approve
to source `pending`, reject to `pending`/`approved`, and complete to
`approved`/`checked_in`; an admin action on a booking whose status is not
an allowed source fails with an invalid-transition error and changes
nothing; a user cancel on a booking not in `pending`/`approved` fails and
changes nothing; and a QR check-in on a booking not in `approved` fails
and changes nothing. -/
theorem C3_transition_table (db : DB) (pk token requester : ℕ) :
    ((valid_transitions AdminAction.approve).1 = [Status.pending] ∧
      (valid_transitions AdminAction.reject).1 =
        [Status.pending, Status.approved] ∧
      (valid_transitions AdminAction.complete).1 =
        [Status.approved, Status.checked_in]) ∧
    (∀ (action : AdminAction) (a : Appointment),
      db.appointments.find? (fun b => b.id == pk) = some a →
      a.status ∉ (valid_transitions action).1 →
        admin_action db pk action =
          (db, Except.error ActionError.invalidTransition)) ∧
    (∀ a : Appointment,
      db.appointments.find? (fun b => b.id == pk && b.user == requester) =
          some a →
      ¬(a.status = Status.pending ∨ a.status = Status.approved) →
        cancel_appointment db requester pk =
          (db, Except.error CancelError.cannotCancel)) ∧
    (∀ a : Appointment,
      db.appointments.find? (fun b => b.qr_token == token) = some a →
      a.status ≠ Status.approved →
        qr_check_in db token =
          (db, Except.error ActionError.invalidTransition)) := by
  refine ⟨⟨rfl, rfl, rfl⟩, ?_, ?_, ?_⟩
  · intro action a hfa hnmem
    have hcond : ((valid_transitions action).1.contains a.status) = false := by
      simpa using hnmem
    rw [admin_action, hfa]
    simp only [hcond]
    simp
  · intro a hfa hnst
    have hcond : (a.status == Status.pending ||
        a.status == Status.approved) = false := by
      push_neg at hnst
      simp [hnst.1, hnst.2]
    rw [cancel_appointment, hfa]
    simp only [hcond]
    simp
  · intro a hfa hnst
    have hcond : (a.status == Status.approved) = false := by
      simp [hnst]
    rw [qr_check_in, hfa]
    simp only [hcond]
    simp

/-- A completed booking by user 5 with token 42, for concrete runs. -/
def apptDone : Appointment :=
  { id := 1, user := 5, service := 1, timeslot := 1
    status := Status.completed, qr_token := 42 }

/-- A store holding only the completed booking `apptDone`. -/
def dbDone : DB :=
  { services := [{ id := 1, duration := 30, is_active := true }]
    slots := [tsCancel], appointments := [apptDone]
    blocked_dates := [], today := 10 }

/-- C3 witness: on the completed booking, approve, cancel and check-in all
fail with the corresponding error and leave the store untouched. -/
theorem C3_transition_table_witness :
    admin_action dbDone 1 AdminAction.approve =
        (dbDone, Except.error ActionError.invalidTransition) ∧
      cancel_appointment dbDone 5 1 =
        (dbDone, Except.error CancelError.cannotCancel) ∧
      qr_check_in dbDone 42 =
        (dbDone, Except.error ActionError.invalidTransition) := by
  have h := C3_transition_table dbDone 1 42 5
  exact ⟨h.2.1 AdminAction.approve apptDone (by decide) (by decide),
    h.2.2.1 apptDone (by decide) (by decide),
    h.2.2.2 apptDone (by decide) (by decide)⟩

/-! ## C9: cancel is owner-scoped -/

/-- C9: when a booking with the requested pk exists but none of the rows
with that pk belong to the requester, the cancel endpoint reports
not-found and returns the store unchanged. -/
theorem C9_cancel_owner_scoped (db : DB) (requester pk : ℕ)
    (hex : ∃ a ∈ db.appointments, a.id = pk)
    (hother : ∀ a ∈ db.appointments, a.id = pk → a.user ≠ requester) :
    cancel_appointment db requester pk =
      (db, Except.error CancelError.notFound) := by
  have hnone : db.appointments.find?
      (fun a => a.id == pk && a.user == requester) = none := by
    rw [List.find?_eq_none]
    intro a ha
    simp only [Bool.and_eq_true, beq_iff_eq, not_and]
    intro hid
    exact hother a ha hid
  rw [cancel_appointment, hnone]

/-- C9 witness: user 7 tries to cancel booking 1, which belongs to user 5;
the call reports not-found and leaves the store unchanged. -/
theorem C9_cancel_owner_scoped_witness :
    cancel_appointment dbCancel 7 1 =
      (dbCancel, Except.error CancelError.notFound) :=
  C9_cancel_owner_scoped dbCancel 7 1 (by decide) (by decide)

/-! ## C8: estimated waiting time -/

/-- C8: for a booking whose slot and service rows resolve, the estimated
waiting time equals the number of bookings (any user, any service) whose
status lies in {pending, approved, checked_in} and whose slot is on the
same date with a strictly earlier start time, multiplied by the service's
duration — with 30 substituted when the stored duration is the falsy value
0 ("unset"). -/
theorem C8_estimated_waiting_time (db : DB) (a : Appointment)
    (ts : TimeSlot) (sv : Service)
    (hts : findSlot db a.timeslot = some ts)
    (hsv : findService db a.service = some sv) :
    estimated_waiting_time db a = some
      ((db.appointments.countP (fun b =>
          match findSlot db b.timeslot with
          | some bs =>
              bs.date == ts.date && bs.start_time < ts.start_time &&
                [Status.pending, Status.approved,
                  Status.checked_in].contains b.status
          | none => false)) *
        (if sv.duration = 0 then 30 else sv.duration)) := by
  rw [estimated_waiting_time, hts, hsv]
  simp only [List.countP_eq_length_filter, waitingStatuses]
  rfl

/-- Service 1 with the falsy duration 0, so waits use the default 30. -/
def svDur0 : Service := { id := 1, duration := 0, is_active := true }

/-- An early slot (9:00) on day 10. -/
def tsWaitEarly : TimeSlot :=
  { id := 1, date := 10, start_time := 540, end_time := 600
    is_available := true, capacity := 3 }

/-- A later slot (10:00) on day 10. -/
def tsWaitLate : TimeSlot :=
  { id := 2, date := 10, start_time := 600, end_time := 660
    is_available := true, capacity := 3 }

/-- A pending booking on the early slot. -/
def apptWaitEarly : Appointment :=
  { id := 1, user := 5, service := 1, timeslot := 1
    status := Status.pending, qr_token := 31 }

/-- An approved booking on the late slot, whose wait we estimate. -/
def apptWaitLate : Appointment :=
  { id := 2, user := 6, service := 1, timeslot := 2
    status := Status.approved, qr_token := 32 }

/-- A store with one earlier active booking ahead of `apptWaitLate`. -/
def dbWait : DB :=
  { services := [svDur0], slots := [tsWaitEarly, tsWaitLate]
    appointments := [apptWaitEarly, apptWaitLate]
    blocked_dates := [], today := 10 }

/-- C8 witness: the booking on the 10:00 slot has exactly one active
booking before it and a zero ("unset") duration, so its estimated wait is
1 × 30 = 30. -/
theorem C8_estimated_waiting_time_witness :
    estimated_waiting_time dbWait apptWaitLate = some 30 := by
  have h := C8_estimated_waiting_time dbWait apptWaitLate tsWaitLate svDur0
    (by decide) (by decide)
  rw [h]
  decide

/-! ## C1: booking creation -/

/-- Every list element is at most the `foldr max 0` of the list. -/
theorem le_foldr_max (l : List ℕ) : ∀ x ∈ l, x ≤ l.foldr max 0 := by
  induction l with
  | nil => simp
  | cons a l ih =>
    intro x hx
    rcases List.mem_cons.mp hx with rfl | h
    · exact le_max_left _ _
    · exact le_trans (ih x h) (le_max_right _ _)

/-- The generated check-in token collides with no stored token. -/
theorem freshToken_not_mem (db : DB) :
    freshToken db ∉ db.appointments.map (fun b => b.qr_token) := by
  intro h
  have hle := le_foldr_max _ _ h
  rw [freshToken] at hle
  omega

/-- Every row of `setSlotAvailability` whose id is the target carries the
written flag. -/
theorem is_available_of_mem_setSlotAvailability {slots : List TimeSlot}
    {sid : ℕ} {flag : Bool} {s : TimeSlot}
    (hs : s ∈ setSlotAvailability slots sid flag) (hid : s.id = sid) :
    s.is_available = flag := by
  rw [setSlotAvailability, List.mem_map] at hs
  obtain ⟨s0, _, hgs⟩ := hs
  by_cases h0 : s0.id = sid
  · rw [if_pos h0] at hgs
    rw [← hgs]
  · rw [if_neg h0] at hgs
    rw [← hgs] at hid
    exact absurd hid h0

/-- A slot on the blocked day 5. -/
def tsBlockedDay : TimeSlot :=
  { id := 1, date := 5, start_time := 540, end_time := 600
    is_available := true, capacity := 3 }

/-- A store where day 5 is blocked and slot 1 lies on day 5. -/
def dbBook : DB :=
  { services := [{ id := 1, duration := 30, is_active := true }]
    slots := [tsBlockedDay], appointments := []
    blocked_dates := [5], today := 0 }

/-- C1 counterexample: slot 1's stored date (5) is blocked, yet a booking
request submitting the unblocked date parameter 6 together with slot 1
succeeds and mutates the store — the view validates the submitted `date`
field, never the slot's own date, so precondition (a) as claimed ("the
slot's date is not blocked") is not enforced. -/
theorem C1_counterexample :
    dbBook.blocked_dates.contains tsBlockedDay.date = true ∧
      findSlot dbBook 1 = some tsBlockedDay ∧
      (book_appointment dbBook 7 1 6 1).2 = Except.ok 1 ∧
      (book_appointment dbBook 7 1 6 1).1 ≠ dbBook := by
  decide

/-- C1 (amended): booking creation checks the preconditions in request
order — the **submitted date parameter** (not the slot's stored date) is
not blocked, the slot has remaining occupancy-derived capacity, the user
holds no active (non-cancelled, non-rejected) booking on the slot, and the
referenced service exists and is active.  Each violated check fails with
its domain rejection and the store is returned unchanged.  When all hold,
exactly one new booking is prepended, in `pending` state, carrying a token
distinct from every stored token, and the slot's availability flag is
cleared when the slot has become full while the slot table is untouched
when spots remain; services, blocked dates and the clock never change. -/
theorem C1_booking_creation (db : DB) (user service_id : ℕ) (date_param : ℤ)
    (slot_id : ℕ) (ts : TimeSlot) (sv : Service)
    (hfind : findSlot db slot_id = some ts) :
    (db.blocked_dates.contains date_param = true →
      book_appointment db user service_id date_param slot_id =
        (db, Except.error BookError.dateBlocked)) ∧
    (db.blocked_dates.contains date_param = false →
      available_spots db ts = 0 →
      book_appointment db user service_id date_param slot_id =
        (db, Except.error BookError.capacityExceeded)) ∧
    (db.blocked_dates.contains date_param = false →
      available_spots db ts ≠ 0 →
      hasActiveBooking db user ts.id = true →
      book_appointment db user service_id date_param slot_id =
        (db, Except.error BookError.duplicateBooking)) ∧
    (db.blocked_dates.contains date_param = false →
      available_spots db ts ≠ 0 →
      hasActiveBooking db user ts.id = false →
      db.services.find? (fun s => s.id == service_id && s.is_active) =
        none →
      book_appointment db user service_id date_param slot_id =
        (db, Except.error BookError.invalidService)) ∧
    (db.blocked_dates.contains date_param = false →
      available_spots db ts ≠ 0 →
      hasActiveBooking db user ts.id = false →
      db.services.find? (fun s => s.id == service_id && s.is_active) =
        some sv →
      (book_appointment db user service_id date_param slot_id).2 =
          Except.ok (mkAppointment db user sv ts).id ∧
        (book_appointment db user service_id date_param slot_id).1.appointments =
          mkAppointment db user sv ts :: db.appointments ∧
        (mkAppointment db user sv ts).status = Status.pending ∧
        (mkAppointment db user sv ts).qr_token ∉
          db.appointments.map (fun b => b.qr_token) ∧
        (available_spots
            (book_appointment db user service_id date_param slot_id).1 ts = 0 →
          ∀ s ∈ (book_appointment db user service_id date_param slot_id).1.slots,
            s.id = ts.id → s.is_available = false) ∧
        (available_spots
            (book_appointment db user service_id date_param slot_id).1 ts ≠ 0 →
          (book_appointment db user service_id date_param slot_id).1.slots =
            db.slots) ∧
        (book_appointment db user service_id date_param slot_id).1.services =
          db.services ∧
        (book_appointment db user service_id date_param slot_id).1.blocked_dates =
          db.blocked_dates ∧
        (book_appointment db user service_id date_param slot_id).1.today =
          db.today) := by
  refine ⟨?_, ?_, ?_, ?_, ?_⟩
  · intro hb
    rw [book_appointment, if_pos hb]
  · intro hb hcap
    rw [book_appointment, if_neg (by simp only [hb]; exact Bool.false_ne_true),
      hfind]
    dsimp only
    rw [if_pos hcap]
  · intro hb hcap hdup
    rw [book_appointment, if_neg (by simp only [hb]; exact Bool.false_ne_true),
      hfind]
    dsimp only
    rw [if_neg hcap, if_pos hdup]
  · intro hb hcap hdup hsv
    rw [book_appointment, if_neg (by simp only [hb]; exact Bool.false_ne_true),
      hfind]
    dsimp only
    rw [if_neg hcap,
      if_neg (by simp only [hdup]; exact Bool.false_ne_true), hsv]
  · intro hb hcap hdup hsv
    have hbook : book_appointment db user service_id date_param slot_id =
        (if available_spots
            { db with
              appointments := mkAppointment db user sv ts :: db.appointments }
            ts = 0 then
          { db with
            appointments := mkAppointment db user sv ts :: db.appointments
            slots := setSlotAvailability db.slots ts.id false }
        else
          { db with
            appointments := mkAppointment db user sv ts :: db.appointments },
          Except.ok (mkAppointment db user sv ts).id) := by
      rw [book_appointment,
        if_neg (by simp only [hb]; exact Bool.false_ne_true), hfind]
      dsimp only
      rw [if_neg hcap,
        if_neg (by simp only [hdup]; exact Bool.false_ne_true), hsv]
    rw [hbook]
    by_cases h2 : available_spots
        { db with
          appointments := mkAppointment db user sv ts :: db.appointments }
        ts = 0
    · rw [if_pos h2]
      refine ⟨rfl, rfl, rfl, freshToken_not_mem db, ?_, ?_, rfl, rfl, rfl⟩
      · intro _ s hs hsid
        exact is_available_of_mem_setSlotAvailability hs hsid
      · intro hne
        exact absurd h2 hne
    · rw [if_neg h2]
      refine ⟨rfl, rfl, rfl, freshToken_not_mem db, ?_, fun _ => rfl, rfl,
        rfl, rfl⟩
      intro h0
      exact absurd h0 h2

/-- C1 witness: on `dbBook` a request submitting the blocked date 5 is
rejected with the date-blocked error and leaves the store unchanged. -/
theorem C1_booking_creation_witness :
    book_appointment dbBook 7 1 5 1 =
      (dbBook, Except.error BookError.dateBlocked) :=
  (C1_booking_creation dbBook 7 1 5 1 tsBlockedDay
    { id := 1, duration := 30, is_active := true } (by decide)).1 (by decide)

end SmartQueue
